import Mathlib

/-!
Verification of the platform pass-through emulator
(`emulators/pt/platform.c`).

The module is embedded shallowly: each C function becomes a Lean function
that returns its result together with a trace of the external calls it
makes (devtree reads, host-IRQ operations, IOMMU operations, allocations,
frees, ...).  Fallible external subsystems are represented by an
environment record whose fields give the outcome of each call.  Resource
accounting (which host lines are registered or routed, how many arrays,
instances, device references, domains and subscriptions are resident) is
derived from the trace by a fold.
-/

set_option maxRecDepth 16000

namespace PlatformPT

/-! ### Error codes and constants

Error codes come from `vmm_error.h`, which is outside the sources at hand;
only their distinctness and identity matter here, so they are modelled as
distinct integers.  `VMM_OK` is 0 as in the C code (success is `rc == 0`).
-/

def VMM_OK : Int := 0
def VMM_EFAIL : Int := -1
def VMM_ENOMEM : Int := -2
def VMM_EINVALID : Int := -3
def VMM_EOVERFLOW : Int := -4

/-- Modelled from the spec: `vmm_irq_return_t` value reported by a handler
that handled the interrupt (header not among the sources). -/
def VMM_IRQ_HANDLED : Nat := 1

/-- Modelled from the spec: notifier dispositions (header not among the
sources).  `NOTIFY_DONE` is the non-error "ignored" disposition, and
`NOTIFY_OK` the non-error "handled" disposition. -/
def NOTIFY_DONE : Nat := 0

def NOTIFY_OK : Nat := 1

/-- Modelled from the spec: the aspace event kind "guest address space
initialized" (header not among the sources). -/
def VMM_GUEST_ASPACE_EVENT_INIT : Nat := 1

/-- Modelled from the spec: guest-region flag bits (header not among the
sources); only their use as a bit mask matters. -/
def VMM_REGION_REAL : Nat := 1
def VMM_REGION_MEMORY : Nat := 2
def VMM_REGION_ISRAM : Nat := 4
def VMM_REGION_ISHOSTRAM : Nat := 8

/-- Modelled from the spec: IOMMU permission bits (header not among the
sources). -/
def VMM_IOMMU_READ : Nat := 1
def VMM_IOMMU_WRITE : Nat := 2

/-- The attribute name "host-interrupts" used by `platform_pt_probe`. -/
def attrHI : String := "host-interrupts"

/-- `VMM_DEVTREE_INTERRUPTS_ATTR_NAME`, i.e. "interrupts". -/
def attrINT : String := "interrupts"

/-! ### External-call events

One constructor per external call the module makes.  Fallible calls record
the outcome the environment chose for them, so that resource residuals can
be derived from the trace. -/

def exceptDecEq : (a b : Except Int Nat) → Decidable (a = b)
  | .ok a, .ok b =>
      if h : a = b then .isTrue (congrArg Except.ok h)
      else .isFalse (fun hc => h (Except.ok.inj hc))
  | .ok _, .error _ => .isFalse (fun hc => Except.noConfusion hc)
  | .error _, .ok _ => .isFalse (fun hc => Except.noConfusion hc)
  | .error a, .error b =>
      if h : a = b then .isTrue (congrArg Except.error h)
      else .isFalse (fun hc => h (Except.error.inj hc))

instance : DecidableEq (Except Int Nat) := exceptDecEq

inductive Ev where
  | allocInstance (ok : Bool)
  | freeInstance
  | allocArray (which : Nat) (ok : Bool)
  | freeArray (which : Nat)
  | readU32 (attr : String) (idx : Nat) (res : Except Int Nat)
  | setType (h t : Nat) (rc : Int)
  | markRouted (h : Nat) (rc : Int)
  | registerH (h : Nat) (rc : Int)
  | unregisterH (h : Nat)
  | unmarkRouted (h : Nat)
  | findDev (devname : String) (found : Bool)
  | refDevice (d : Nat)
  | drefDevice (d : Nat)
  | domainAlloc (grp : Nat) (res : Option Nat)
  | domainFree (d : Nat)
  | setFaultHandler (d : Nat)
  | subscribe (rc : Int)
  | unsubscribe
  | emulate (guest gIrq level : Nat) (rc : Int)
  | mapH2G (guest gIrq hIrq : Nat)
  | iommuMap (dom iova hphys len perm : Nat)
deriving Repr, DecidableEq

/-! ### Resource residuals derived from a trace -/

structure Residual where
  instances : Int
  arrays : Int
  registered : Multiset Nat
  routed : Multiset Nat
  devRefs : Int
  domains : Int
  subs : Int
deriving DecidableEq

def emptyResidual : Residual :=
  ⟨0, 0, 0, 0, 0, 0, 0⟩

def applyEv (r : Residual) : Ev → Residual
  | .allocInstance ok => if ok then { r with instances := r.instances + 1 } else r
  | .freeInstance => { r with instances := r.instances - 1 }
  | .allocArray _ ok => if ok then { r with arrays := r.arrays + 1 } else r
  | .freeArray _ => { r with arrays := r.arrays - 1 }
  | .readU32 _ _ _ => r
  | .setType _ _ _ => r
  | .markRouted h rc => if rc = 0 then { r with routed := h ::ₘ r.routed } else r
  | .unmarkRouted h => { r with routed := r.routed.erase h }
  | .registerH h rc => if rc = 0 then { r with registered := h ::ₘ r.registered } else r
  | .unregisterH h => { r with registered := r.registered.erase h }
  | .findDev _ _ => r
  | .refDevice _ => { r with devRefs := r.devRefs + 1 }
  | .drefDevice _ => { r with devRefs := r.devRefs - 1 }
  | .domainAlloc _ res =>
      match res with
      | some _ => { r with domains := r.domains + 1 }
      | none => r
  | .domainFree _ => { r with domains := r.domains - 1 }
  | .setFaultHandler _ => r
  | .subscribe rc => if rc = 0 then { r with subs := r.subs + 1 } else r
  | .unsubscribe => { r with subs := r.subs - 1 }
  | .emulate _ _ _ _ => r
  | .mapH2G _ _ _ => r
  | .iommuMap _ _ _ _ _ => r

def applyEvs (r : Residual) (tr : List Ev) : Residual :=
  tr.foldl applyEv r

def residualOf (tr : List Ev) : Residual :=
  applyEvs emptyResidual tr

/-- Host lines whose trigger type was set (successfully) by the trace.
No external call made by this module ever reverts a type set, so this
list only grows along a trace. -/
def typesSetBy : List Ev → List (Nat × Nat)
  | [] => []
  | .setType h t rc :: rest =>
      if rc = 0 then (h, t) :: typesSetBy rest else typesSetBy rest
  | _ :: rest => typesSetBy rest

/-! ### The instance state (`struct platform_pt_state`)

The three parallel arrays `host_irqs`, `host_type_irqs`, `guest_irqs` are
allocated together with one common length `irq_count` and are only written
index-by-index in lockstep, so they are modelled as one list of triples
`(hostIrq, hostTypeIrq, guestIrq)`; `irq_count` is the list length, and
the arrays are resident (non-NULL) exactly when the list is nonempty. -/

structure PtState where
  name : List Char
  guest : Nat
  irqs : List (Nat × Nat × Nat)
  dev : Option Nat
  dom : Option Nat
deriving Repr, DecidableEq

/-! ### `strlcpy` / `strlcat` and name construction -/

/-- BSD `strlcpy`: truncating copy; returns the length of `src`. -/
def strlcpy (src : List Char) (siz : Nat) : List Char × Nat :=
  (src.take (siz - 1), src.length)

/-- BSD `strlcat`: truncating append; returns the length it tried to
create.  (`dst` always fits in the buffer at the call sites below, so the
degenerate `dst.length ≥ siz` case never appends, matching C.) -/
def strlcat (dst src : List Char) (siz : Nat) : List Char × Nat :=
  let dl := min dst.length siz
  (dst ++ src.take (siz - 1 - dl), dl + src.length)

/-- The three name-building calls at the top of `platform_pt_probe`:
`strlcpy(name, guest->name, 64)`, `strlcat(name, "/", 64)`,
`strlcat(name, edev->node->name, 64)`.  Returns the buffer contents and
the final `strlcat` return value (checked against 64 by probe). -/
def buildName (guestName nodeName : List Char) : List Char × Nat :=
  let a := strlcpy guestName 64
  let b := strlcat a.1 [Char.ofNat 47] 64
  strlcat b.1 nodeName 64

/-! ### The routed-IRQ handler (`platform_pt_routed_irq`) -/

/-- The linear scan in `platform_pt_routed_irq`: first triple whose host
IRQ matches, returning its guest IRQ. -/
def findGuestIrq : List (Nat × Nat × Nat) → Nat → Option Nat
  | [], _ => none
  | (h, _, g) :: rest, irq => if h = irq then some g else findGuestIrq rest irq

structure HandlerEnv where
  emulateRc : Nat → Nat → Nat → Int

/-- `platform_pt_routed_irq`: scan the table for the firing host IRQ; if
absent do nothing; if present emulate the mapped guest IRQ at level 0 and
then at level 1 (a failed emulate call is only logged); always return
`VMM_IRQ_HANDLED`. -/
def platform_pt_routed_irq (env : HandlerEnv) (s : PtState) (irq : Nat) :
    List Ev × Nat :=
  match findGuestIrq s.irqs irq with
  | none => ([], VMM_IRQ_HANDLED)
  | some g =>
      ([.emulate s.guest g 0 (env.emulateRc s.guest g 0),
        .emulate s.guest g 1 (env.emulateRc s.guest g 1)],
       VMM_IRQ_HANDLED)

/-! ### The aspace-event subscriber (`platform_pt_guest_aspace_notification`) -/

structure VmmRegion where
  flags : Nat
  gphysStart : Nat
  gphysEnd : Nat
  hphysStart : Nat
deriving Repr, DecidableEq

/-- The flag mask passed to `vmm_guest_iterate_region` by the subscriber. -/
def ptRegionMask : Nat :=
  VMM_REGION_REAL ||| VMM_REGION_MEMORY ||| VMM_REGION_ISRAM ||| VMM_REGION_ISHOSTRAM

/-- Modelled from the spec: `vmm_guest_iterate_region` (its implementation,
`vmm_guest_aspace.c`, is not among the sources).  Per spec section 4.4 it
visits, in order, every guest region carrying all the requested flags. -/
def vmm_guest_iterate_region (regions : List VmmRegion) (mask : Nat) :
    List VmmRegion :=
  regions.filter (fun r => r.flags &&& mask = mask)

/-- `platform_pt_iter`: map one guest region into the IOMMU domain, for the
whole guest-physical range, read+write. -/
def platform_pt_iter (dom : Nat) (r : VmmRegion) : Ev :=
  .iommuMap dom r.gphysStart r.hphysStart (r.gphysEnd - r.gphysStart)
    (VMM_IOMMU_READ ||| VMM_IOMMU_WRITE)

/-- `platform_pt_guest_aspace_notification`: ignore events that are not
aspace-init, ignore events for other guests; otherwise register every
host-to-guest IRQ mapping, then (if a domain is present) map every real,
memory, RAM-backed, host-RAM-backed region.  The state is returned so that
the theorems can talk about it being left unchanged; the C function never
writes to `s`. -/
def platform_pt_guest_aspace_notification (regions : List VmmRegion)
    (s : PtState) (evt : Nat) (evGuest : Nat) : PtState × Nat × List Ev :=
  if evt ≠ VMM_GUEST_ASPACE_EVENT_INIT then
    (s, NOTIFY_DONE, [])
  else if s.guest ≠ evGuest then
    (s, NOTIFY_DONE, [])
  else
    (s, NOTIFY_OK,
      s.irqs.map (fun t => Ev.mapH2G s.guest t.2.2 t.1) ++
      (match s.dom with
       | none => []
       | some d =>
           (vmm_guest_iterate_region regions ptRegionMask).map
             (platform_pt_iter d)))

/-! ### `platform_pt_remove` -/

/-- `platform_pt_remove`: fails with `VMM_EFAIL` when no state is attached
to `edev->priv`; otherwise unsubscribes, frees the domain if present,
releases the device reference if present, unregisters and unmarks every
configured host line, frees the three arrays (they are non-NULL exactly
when the table is nonempty), frees the state, and clears `edev->priv`. -/
def platform_pt_remove (priv : Option PtState) : Int × Option PtState × List Ev :=
  match priv with
  | none => (VMM_EFAIL, none, [])
  | some s =>
      (VMM_OK, none,
        [Ev.unsubscribe] ++
        (match s.dom with | some d => [Ev.domainFree d] | none => []) ++
        (match s.dev with | some d => [Ev.drefDevice d] | none => []) ++
        s.irqs.flatMap (fun t => [Ev.unregisterH t.1, Ev.unmarkRouted t.1]) ++
        (if s.irqs.isEmpty then [] else
          [Ev.freeArray 2, Ev.freeArray 1, Ev.freeArray 0]) ++
        [Ev.freeInstance])

/-! ### `platform_pt_probe`

The probe environment fixes everything probe consumes from outside:
guest/node names, the byte length of the "host-interrupts" attribute, the
value or failure of each devtree u32 read, the return codes of the
host-IRQ operations, the "iommu-device" string, the device registry, the
domain allocator, the aspace subscription return code, and the outcome of
each heap allocation. -/

structure DevInfo where
  id : Nat
  iommuGroup : Option Nat
deriving Repr, DecidableEq

structure ProbeEnv where
  guestName : List Char
  nodeName : List Char
  guestId : Nat
  attrlen : Nat
  readU32 : String → Nat → Except Int Nat
  setTypeRc : Nat → Nat → Int
  markRoutedRc : Nat → Int
  registerRc : Nat → Int
  iommuDevice : Option String
  findDev : String → Option DevInfo
  domAlloc : Nat → Option Nat
  subscribeRc : Int
  allocInstanceOk : Bool
  allocArrayOk : Nat → Bool

/-- `s->irq_count = vmm_devtree_attrlen(node, "host-interrupts") / (sizeof(u32) * 2)`. -/
def irqCount (env : ProbeEnv) : Nat := env.attrlen / 8

/-- Value of the host-IRQ read at index `i` (0 when the read fails). -/
def valH (env : ProbeEnv) (i : Nat) : Nat :=
  match env.readU32 attrHI (2 * i) with
  | .ok v => v
  | .error _ => 0

/-- Value of the host-IRQ-type read at index `i` (0 when the read fails). -/
def valT (env : ProbeEnv) (i : Nat) : Nat :=
  match env.readU32 attrHI (2 * i + 1) with
  | .ok v => v
  | .error _ => 0

/-- Value of the guest-IRQ read at index `i` (0 when the read fails). -/
def valG (env : ProbeEnv) (i : Nat) : Nat :=
  match env.readU32 attrINT i with
  | .ok v => v
  | .error _ => 0

def readOk (e : Except Int Nat) : Bool :=
  match e with
  | .ok _ => true
  | .error _ => false

/-- All three devtree reads for table index `i` succeed. -/
def readsOk (env : ProbeEnv) (i : Nat) : Prop :=
  readOk (env.readU32 attrHI (2 * i)) = true ∧
  readOk (env.readU32 attrHI (2 * i + 1)) = true ∧
  readOk (env.readU32 attrINT i) = true

instance (env : ProbeEnv) (i : Nat) : Decidable (readsOk env i) := by
  unfold readsOk; infer_instance

/-- The combined outcome of the devtree reads for table index `i`:
either the triple of values or the first failing read's error. -/
def readStepRes (env : ProbeEnv) (i : Nat) : Except Int (Nat × Nat × Nat) :=
  match env.readU32 attrHI (2 * i) with
  | .error rc => .error rc
  | .ok h =>
      match env.readU32 attrHI (2 * i + 1) with
      | .error rc => .error rc
      | .ok t =>
          match env.readU32 attrINT i with
          | .error rc => .error rc
          | .ok g => .ok (h, t, g)

/-- The return code of the registration step at one index: the first
nonzero among `vmm_host_irq_set_type`, `vmm_host_irq_mark_routed`,
`vmm_host_irq_register` (0 when all three succeed). -/
def regStepRc (env : ProbeEnv) (h t : Nat) : Int :=
  if env.setTypeRc h t ≠ 0 then env.setTypeRc h t
  else if env.markRoutedRc h ≠ 0 then env.markRoutedRc h
  else env.registerRc h

/-- Result of probe's per-index loop: the triples read and the trace, or
the first failure's code, the host lines already registered (in index
order, as cleaned up by the `cleanupirqs` loop) and the trace. -/
inductive LoopRes where
  | ok (triples : List (Nat × Nat × Nat)) (tr : List Ev)
  | fail (rc : Int) (regs : List Nat) (tr : List Ev)
deriving Repr

/-- The body of probe's `for (i = 0; i < s->irq_count; i++)` loop, over an
explicit list of indices.  For each index: read `host-interrupts[2i]`,
`host-interrupts[2i+1]` and `interrupts[i]` (any failure aborts with that
error), then set the line's type, mark it routed and install the handler,
each failure aborting with that error — a failed handler install first
unmarks the line it had just marked. -/
def probeLoop (env : ProbeEnv) : List Nat → LoopRes
  | [] => .ok [] []
  | i :: rest =>
    match env.readU32 attrHI (2 * i) with
    | .error rc => .fail rc [] [.readU32 attrHI (2 * i) (.error rc)]
    | .ok h =>
      match env.readU32 attrHI (2 * i + 1) with
      | .error rc =>
          .fail rc []
            [.readU32 attrHI (2 * i) (.ok h),
             .readU32 attrHI (2 * i + 1) (.error rc)]
      | .ok t =>
        match env.readU32 attrINT i with
        | .error rc =>
            .fail rc []
              [.readU32 attrHI (2 * i) (.ok h),
               .readU32 attrHI (2 * i + 1) (.ok t),
               .readU32 attrINT i (.error rc)]
        | .ok g =>
          let revs : List Ev :=
            [.readU32 attrHI (2 * i) (.ok h),
             .readU32 attrHI (2 * i + 1) (.ok t),
             .readU32 attrINT i (.ok g)]
          let rcT := env.setTypeRc h t
          if rcT ≠ 0 then .fail rcT [] (revs ++ [.setType h t rcT])
          else
            let rcM := env.markRoutedRc h
            if rcM ≠ 0 then
              .fail rcM [] (revs ++ [.setType h t 0, .markRouted h rcM])
            else
              let rcR := env.registerRc h
              if rcR ≠ 0 then
                .fail rcR []
                  (revs ++ [.setType h t 0, .markRouted h 0,
                            .registerH h rcR, .unmarkRouted h])
              else
                match probeLoop env rest with
                | .ok triples tr =>
                    .ok ((h, t, g) :: triples)
                      (revs ++ [.setType h t 0, .markRouted h 0,
                                .registerH h 0] ++ tr)
                | .fail rc regs tr =>
                    .fail rc (h :: regs)
                      (revs ++ [.setType h t 0, .markRouted h 0,
                                .registerH h 0] ++ tr)

/-- The `platform_pt_probe_cleanupirqs_fail` label and everything after
it: unregister and unmark each registered line in index order, free the
three arrays when they were allocated, free the state. -/
def cleanupTrace (regs : List Nat) (arrAlloc : Bool) : List Ev :=
  regs.flatMap (fun h => [Ev.unregisterH h, Ev.unmarkRouted h]) ++
  (if arrAlloc then [Ev.freeArray 2, Ev.freeArray 1, Ev.freeArray 0] else []) ++
  [Ev.freeInstance]

/-- The tail of probe from the `vmm_guest_aspace_register_client` call on:
on success, attach the built state to `edev->priv`; on failure, free the
domain if present, release the device reference if present, and run the
full IRQ/array/state cleanup. -/
def probeFinish (env : ProbeEnv) (nm : List Char)
    (triples : List (Nat × Nat × Nat)) (dev dom : Option Nat)
    (tr : List Ev) (arrAlloc : Bool) : Int × Option PtState × List Ev :=
  if env.subscribeRc = 0 then
    (VMM_OK, some ⟨nm, env.guestId, triples, dev, dom⟩, tr ++ [.subscribe 0])
  else
    (env.subscribeRc, none,
      tr ++ [Ev.subscribe env.subscribeRc] ++
      (match dom with | some d => [Ev.domainFree d] | none => []) ++
      (match dev with | some d => [Ev.drefDevice d] | none => []) ++
      cleanupTrace (triples.map (fun t => t.1)) arrAlloc)

/-- Probe from the IRQ loop on: run the loop, then resolve the optional
"iommu-device" (not found or no IOMMU group is `VMM_EINVALID` before any
reference is taken; a failed domain allocation is `VMM_EFAIL` after
releasing the reference), install the fault handler on the fresh domain,
and subscribe to aspace events. -/
def probeRest (env : ProbeEnv) (nm : List Char) (trPre : List Ev)
    (arrAlloc : Bool) : Int × Option PtState × List Ev :=
  match probeLoop env (List.range (irqCount env)) with
  | .fail rc regs ltr => (rc, none, trPre ++ ltr ++ cleanupTrace regs arrAlloc)
  | .ok triples ltr =>
    let regs := triples.map (fun t => t.1)
    let tr1 := trPre ++ ltr
    match env.iommuDevice with
    | none => probeFinish env nm triples none none tr1 arrAlloc
    | some dname =>
      match env.findDev dname with
      | none =>
          (VMM_EINVALID, none,
            tr1 ++ [Ev.findDev dname false] ++ cleanupTrace regs arrAlloc)
      | some dev =>
        match dev.iommuGroup with
        | none =>
            (VMM_EINVALID, none,
              tr1 ++ [Ev.findDev dname true] ++ cleanupTrace regs arrAlloc)
        | some grp =>
          let tr2 := tr1 ++ [Ev.findDev dname true, Ev.refDevice dev.id]
          match env.domAlloc grp with
          | none =>
              (VMM_EFAIL, none,
                tr2 ++ [Ev.domainAlloc grp none, Ev.drefDevice dev.id] ++
                cleanupTrace regs arrAlloc)
          | some d =>
              probeFinish env nm triples (some dev.id) (some d)
                (tr2 ++ [Ev.domainAlloc grp (some d), Ev.setFaultHandler d])
                arrAlloc

/-- `platform_pt_probe`: allocate the state; build the name (overflow
frees the state and fails); compute `irq_count`; allocate the three
parallel arrays when `irq_count` is nonzero (each allocation failure frees
what came before); then run the loop / IOMMU / subscribe stages.  Returns
the final `rc`, the value stored in `edev->priv` (the state on success,
otherwise untouched, i.e. `none`), and the trace of external calls. -/
def probe (env : ProbeEnv) : Int × Option PtState × List Ev :=
  if env.allocInstanceOk = false then
    (VMM_ENOMEM, none, [.allocInstance false])
  else
    let nm := buildName env.guestName env.nodeName
    if 64 ≤ nm.2 then
      (VMM_EOVERFLOW, none, [.allocInstance true, .freeInstance])
    else if irqCount env = 0 then
      probeRest env nm.1 [.allocInstance true] false
    else if env.allocArrayOk 0 = false then
      (VMM_ENOMEM, none,
        [.allocInstance true, .allocArray 0 false, .freeInstance])
    else if env.allocArrayOk 1 = false then
      (VMM_ENOMEM, none,
        [.allocInstance true, .allocArray 0 true, .allocArray 1 false,
         .freeArray 0, .freeInstance])
    else if env.allocArrayOk 2 = false then
      (VMM_ENOMEM, none,
        [.allocInstance true, .allocArray 0 true, .allocArray 1 true,
         .allocArray 2 false, .freeArray 1, .freeArray 0, .freeInstance])
    else
      probeRest env nm.1
        [.allocInstance true, .allocArray 0 true, .allocArray 1 true,
         .allocArray 2 true] true

/-! ### Derived trace vocabulary used by the theorems -/

/-- The six events index `i` of the probe loop emits when all its reads
and registration sub-steps succeed. -/
def okBlock (env : ProbeEnv) (i : Nat) : List Ev :=
  [.readU32 attrHI (2 * i) (.ok (valH env i)),
   .readU32 attrHI (2 * i + 1) (.ok (valT env i)),
   .readU32 attrINT i (.ok (valG env i)),
   .setType (valH env i) (valT env i) 0,
   .markRouted (valH env i) 0,
   .registerH (valH env i) 0]

/-- The events index `k` of the probe loop emits when its reads succeed
but its registration step fails: the three reads, then the sub-steps up to
and including the first failing one — a failed handler install also emits
the unmark that the C error path performs before jumping to cleanup. -/
def failBlock (env : ProbeEnv) (k : ℕ) : List Ev :=
  [.readU32 attrHI (2 * k) (.ok (valH env k)),
   .readU32 attrHI (2 * k + 1) (.ok (valT env k)),
   .readU32 attrINT k (.ok (valG env k))] ++
  (if env.setTypeRc (valH env k) (valT env k) ≠ 0 then
    [Ev.setType (valH env k) (valT env k)
      (env.setTypeRc (valH env k) (valT env k))]
   else if env.markRoutedRc (valH env k) ≠ 0 then
    [Ev.setType (valH env k) (valT env k) 0,
     Ev.markRouted (valH env k) (env.markRoutedRc (valH env k))]
   else
    [Ev.setType (valH env k) (valT env k) 0,
     Ev.markRouted (valH env k) 0,
     Ev.registerH (valH env k) (env.registerRc (valH env k)),
     Ev.unmarkRouted (valH env k)])

/-- The read events index `k` of the probe loop emits when one of its
three devtree reads fails (empty if none fails). -/
def readFailTr (env : ProbeEnv) (k : ℕ) : List Ev :=
  match env.readU32 attrHI (2 * k) with
  | .error rc => [.readU32 attrHI (2 * k) (.error rc)]
  | .ok h =>
    match env.readU32 attrHI (2 * k + 1) with
    | .error rc =>
        [.readU32 attrHI (2 * k) (.ok h),
         .readU32 attrHI (2 * k + 1) (.error rc)]
    | .ok t =>
      match env.readU32 attrINT k with
      | .error rc =>
          [.readU32 attrHI (2 * k) (.ok h),
           .readU32 attrHI (2 * k + 1) (.ok t),
           .readU32 attrINT k (.error rc)]
      | .ok _ => []

def isReadEv : Ev → Bool
  | .readU32 _ _ _ => true
  | _ => false

def isRegStageEv : Ev → Bool
  | .setType _ _ _ => true
  | .markRouted _ _ => true
  | .registerH _ _ => true
  | _ => false

def isRefEv : Ev → Bool
  | .refDevice _ => true
  | _ => false

/-- The phase ordering asserted by the spec for probe's stages 2 and 3:
once any type-set / routed-claim / handler-install event has occurred in
the trace, no devtree read occurs any more. -/
def stageOrdered (tr : List Ev) : Bool :=
  (tr.dropWhile (fun e => !(isRegStageEv e))).all (fun e => !(isReadEv e))

/-- The resources a successful probe leaves resident for state `s`: one
instance, the three arrays when the table is nonempty, every configured
host line registered and routed, the optional device reference and
domain, and one subscription. -/
def postProbeResidual (s : PtState) : Residual where
  instances := 1
  arrays := if s.irqs.isEmpty then 0 else 3
  registered := ↑(s.irqs.map (fun t => t.1))
  routed := ↑(s.irqs.map (fun t => t.1))
  devRefs := if s.dev.isSome then 1 else 0
  domains := if s.dom.isSome then 1 else 0
  subs := 1

/-! ### Concrete environments and states used by witnesses and
counterexamples -/

/-- A two-entry configuration on which every external call succeeds:
host lines 10 (type 11) and 12 (type 13) mapped to guest lines 100 and
101; no IOMMU device. -/
def baseEnv : ProbeEnv where
  guestName := [Char.ofNat 103, Char.ofNat 48]
  nodeName := [Char.ofNat 110, Char.ofNat 48]
  guestId := 5
  attrlen := 16
  readU32 := fun a i => if a = attrHI then .ok (10 + i) else .ok (100 + i)
  setTypeRc := fun _ _ => 0
  markRoutedRc := fun _ => 0
  registerRc := fun _ => 0
  iommuDevice := none
  findDev := fun _ => none
  domAlloc := fun _ => none
  subscribeRc := 0
  allocInstanceOk := true
  allocArrayOk := fun _ => true

/-- `baseEnv` with the routed-claim step failing on every line. -/
def envMarkFail : ProbeEnv :=
  { baseEnv with attrlen := 8, markRoutedRc := fun _ => -7 }

/-- `baseEnv` with the handler-install step failing on line 12 (index 1). -/
def envRegFail : ProbeEnv :=
  { baseEnv with registerRc := fun h => if h = 12 then -9 else 0 }

/-- `baseEnv` with the guest-IRQ read at index 1 failing. -/
def envReadFail : ProbeEnv :=
  { baseEnv with
      readU32 := fun a i =>
        if a = attrHI then .ok (10 + i)
        else if i = 1 then .error (-5) else .ok (100 + i) }

/-- A 63-character guest name together with an empty device-node name:
the concatenation (length 64) does not fit the 64-byte buffer. -/
def envLongName : ProbeEnv :=
  { baseEnv with
      guestName := List.replicate 63 (Char.ofNat 97)
      nodeName := []
      attrlen := 0 }

/-- A 60-character guest name with a 10-character device-node name: the
concatenation has length 71 and does not fit the 64-byte buffer. -/
def envOverflow : ProbeEnv :=
  { baseEnv with
      guestName := List.replicate 60 (Char.ofNat 97)
      nodeName := List.replicate 10 (Char.ofNat 98) }

/-- `baseEnv` with an IOMMU device configured that resolves to a device
with group 77 and a successful domain allocation (domain 42). -/
def envIommuOk : ProbeEnv :=
  { baseEnv with
      iommuDevice := some "uart0"
      findDev := fun _ => some ⟨21, some 77⟩
      domAlloc := fun g => if g = 77 then some 42 else none }

/-- `envIommuOk` with a device registry that does not know the name. -/
def envIommuNoDev : ProbeEnv :=
  { envIommuOk with findDev := fun _ => none }

/-- A concrete post-probe state: guest 5, host lines 10 and 12 (types 11
and 13) mapped to guest lines 100 and 101, no device, no domain. -/
def stateA : PtState where
  name := [Char.ofNat 103, Char.ofNat 48]
  guest := 5
  irqs := [(10, 11, 100), (12, 13, 101)]
  dev := none
  dom := none

/-- A state whose table maps the same host line 10 at indices 0 and 1 to
different guest lines 100 and 200. -/
def stateDup : PtState :=
  { stateA with irqs := [(10, 11, 100), (10, 11, 200), (12, 13, 101)] }

/-- A handler environment whose emulate calls all fail, to witness that
delivery failures do not change the handler's behaviour. -/
def handlerEnvFail : HandlerEnv where
  emulateRc := fun _ _ _ => -3

/-- The state a successful probe of `baseEnv` attaches to the device
slot: name "g0/n0", guest 5, the two read triples, no device, no
domain. -/
def stateBase : PtState where
  name := [Char.ofNat 103, Char.ofNat 48, Char.ofNat 47,
           Char.ofNat 110, Char.ofNat 48]
  guest := 5
  irqs := [(10, 11, 100), (12, 13, 101)]
  dev := none
  dom := none

/-! ### Supporting lemmas -/

theorem applyEvs_append (r : Residual) (a b : List Ev) :
    applyEvs r (a ++ b) = applyEvs (applyEvs r a) b :=
  List.foldl_append ..

theorem typesSetBy_append (a b : List Ev) :
    typesSetBy (a ++ b) = typesSetBy a ++ typesSetBy b := by
  induction a with
  | nil => rfl
  | cons e rest ih =>
      cases e <;> simp only [typesSetBy, List.cons_append] <;>
        first
          | (split <;> simp [ih])
          | simpa using ih

theorem coe_cons_add (a : ℕ) (s : Multiset ℕ) (l : List ℕ) :
    s + ↑(a :: l) = a ::ₘ (s + ↑l) := by
  rw [← Multiset.cons_coe, Multiset.add_cons]

theorem applyEvs_unregList (regs : List ℕ) (r : Residual) :
    applyEvs
      { r with registered := r.registered + ↑regs, routed := r.routed + ↑regs }
      (regs.flatMap (fun h => [Ev.unregisterH h, Ev.unmarkRouted h])) = r := by
  induction regs generalizing r with
  | nil => simp [applyEvs, applyEv]
  | cons h rest ih =>
      rw [List.flatMap_cons]
      have step :
          applyEvs
            { r with registered := r.registered + ↑(h :: rest),
                     routed := r.routed + ↑(h :: rest) }
            [Ev.unregisterH h, Ev.unmarkRouted h] =
          { r with registered := r.registered + ↑rest,
                   routed := r.routed + ↑rest } := by
        simp [applyEvs, applyEv, coe_cons_add, Multiset.erase_cons_head]
      rw [applyEvs_append, step, ih]

theorem applyEvs_cleanup (regs : List ℕ) (arr : Bool) (r : Residual) :
    applyEvs
      { r with registered := r.registered + ↑regs, routed := r.routed + ↑regs }
      (cleanupTrace regs arr) =
    { r with arrays := r.arrays - (if arr then 3 else 0),
             instances := r.instances - 1 } := by
  unfold cleanupTrace
  rw [applyEvs_append, applyEvs_append, applyEvs_unregList]
  cases arr <;> simp [applyEvs, applyEv, Residual.mk.injEq] <;> omega

theorem applyEvs_reads :
    ∀ (rtr : List Ev) (r : Residual), (∀ ev ∈ rtr, isReadEv ev = true) →
      applyEvs r rtr = r := by
  intro rtr
  induction rtr with
  | nil => intro r _; rfl
  | cons e rest ih =>
      intro r hr
      have he : isReadEv e = true := hr e (by simp)
      have hrest : ∀ ev ∈ rest, isReadEv ev = true :=
        fun ev hev => hr ev (by simp [hev])
      cases e <;> simp [isReadEv] at he
      simp only [applyEvs, List.foldl_cons, applyEv]
      exact ih r hrest

theorem readOk_eq (e : Except Int ℕ) (h : readOk e = true) : ∃ v, e = .ok v := by
  cases e with
  | ok v => exact ⟨v, rfl⟩
  | error rc => simp [readOk] at h

theorem regStepRc_eq_zero (env : ProbeEnv) (h t : ℕ) :
    regStepRc env h t = 0 ↔
      env.setTypeRc h t = 0 ∧ env.markRoutedRc h = 0 ∧ env.registerRc h = 0 := by
  unfold regStepRc
  by_cases h1 : env.setTypeRc h t = 0 <;>
    by_cases h2 : env.markRoutedRc h = 0 <;> simp [h1, h2]

theorem range_split (k n : ℕ) (h : k < n) :
    List.range n = List.range k ++ k :: List.range' (k + 1) (n - (k + 1)) := by
  rw [List.range_eq_range']
  have h2 : List.range' 0 k ++ List.range' (0 + 1 * k) (n - k) =
      List.range' 0 (n - k + k) := List.range'_append 0 k (n - k) 1
  have h4 : n - k + k = n := by omega
  rw [h4] at h2
  rw [← h2, ← List.range_eq_range']
  congr 1
  have h3 : n - k = n - (k + 1) + 1 := by omega
  rw [Nat.one_mul, Nat.zero_add, h3, List.range'_succ]

theorem applyEvs_nil (r : Residual) : applyEvs r [] = r := rfl

theorem applyEvs_cons (r : Residual) (e : Ev) (tr : List Ev) :
    applyEvs r (e :: tr) = applyEvs (applyEv r e) tr := rfl

theorem applyEvs_unregCont (regs : List ℕ) (r : Residual) (rest : List Ev) :
    applyEvs
      { r with registered := r.registered + ↑regs, routed := r.routed + ↑regs }
      (regs.flatMap (fun h => [Ev.unregisterH h, Ev.unmarkRouted h]) ++ rest) =
    applyEvs r rest := by
  rw [applyEvs_append, applyEvs_unregList]

theorem applyEvs_unregCont0 (regs : List ℕ) (i a dr dm sb : Int)
    (rest : List Ev) :
    applyEvs ⟨i, a, ↑regs, ↑regs, dr, dm, sb⟩
      (regs.flatMap (fun h => [Ev.unregisterH h, Ev.unmarkRouted h]) ++ rest) =
    applyEvs ⟨i, a, 0, 0, dr, dm, sb⟩ rest := by
  have h := applyEvs_unregCont regs ⟨i, a, 0, 0, dr, dm, sb⟩ rest
  simpa using h

theorem applyEvs_okBlock (env : ProbeEnv) (i : ℕ) (r : Residual) :
    applyEvs r (okBlock env i) =
      { r with registered := (valH env i) ::ₘ r.registered,
               routed := (valH env i) ::ₘ r.routed } := by
  simp [okBlock, applyEvs, applyEv]

theorem applyEvs_okBlocks (env : ProbeEnv) :
    ∀ (idxs : List ℕ) (r : Residual),
      applyEvs r (idxs.flatMap (okBlock env)) =
        { r with registered := r.registered + ↑(idxs.map (valH env)),
                 routed := r.routed + ↑(idxs.map (valH env)) } := by
  intro idxs
  induction idxs with
  | nil => intro r; simp [applyEvs]
  | cons i rest ih =>
      intro r
      rw [List.flatMap_cons, applyEvs_append, applyEvs_okBlock, ih]
      simp only [List.map_cons, Residual.mk.injEq, coe_cons_add,
        Multiset.cons_add]

theorem applyEvs_failBlock (env : ProbeEnv) (k : ℕ)
    (hne : regStepRc env (valH env k) (valT env k) ≠ 0) (r : Residual) :
    applyEvs r (failBlock env k) = r := by
  unfold failBlock
  by_cases hsT : env.setTypeRc (valH env k) (valT env k) = 0
  · rw [if_neg (by simpa using hsT)]
    by_cases hsM : env.markRoutedRc (valH env k) = 0
    · rw [if_neg (by simpa using hsM)]
      have hsR : env.registerRc (valH env k) ≠ 0 := by
        intro hc
        exact hne ((regStepRc_eq_zero env _ _).mpr ⟨hsT, hsM, hc⟩)
      simp [applyEvs, applyEv, hsR, Multiset.erase_cons_head]
    · rw [if_pos hsM]
      simp [applyEvs, applyEv, hsM]
  · rw [if_pos hsT]
    simp [applyEvs, applyEv, hsT]

theorem typesSetBy_okBlock (env : ProbeEnv) (i : ℕ) :
    typesSetBy (okBlock env i) = [(valH env i, valT env i)] := by
  simp [okBlock, typesSetBy]

theorem typesSetBy_okBlocks (env : ProbeEnv) :
    ∀ (idxs : List ℕ),
      typesSetBy (idxs.flatMap (okBlock env)) =
        idxs.map (fun i => (valH env i, valT env i)) := by
  intro idxs
  induction idxs with
  | nil => rfl
  | cons i rest ih =>
      rw [List.flatMap_cons, typesSetBy_append, typesSetBy_okBlock, ih,
        List.map_cons]
      rfl

theorem typesSetBy_failBlock (env : ProbeEnv) (k : ℕ) :
    typesSetBy (failBlock env k) =
      if env.setTypeRc (valH env k) (valT env k) = 0
      then [(valH env k, valT env k)] else [] := by
  unfold failBlock
  by_cases hsT : env.setTypeRc (valH env k) (valT env k) = 0
  · rw [if_neg (by simpa using hsT), if_pos hsT]
    by_cases hsM : env.markRoutedRc (valH env k) = 0
    · rw [if_neg (by simpa using hsM)]
      simp [typesSetBy]
    · rw [if_pos hsM]
      simp [typesSetBy]
  · rw [if_pos hsT, if_neg hsT]
    simp [typesSetBy, hsT]

theorem typesSetBy_cleanup (regs : List ℕ) (arr : Bool) :
    typesSetBy (cleanupTrace regs arr) = [] := by
  unfold cleanupTrace
  rw [typesSetBy_append, typesSetBy_append]
  have h1 : typesSetBy (regs.flatMap fun h => [Ev.unregisterH h, Ev.unmarkRouted h]) = [] := by
    induction regs with
    | nil => rfl
    | cons h rest ih => rw [List.flatMap_cons, typesSetBy_append, ih]; rfl
  cases arr <;> simp [h1, typesSetBy]

theorem readFailTr_reads (env : ProbeEnv) (k : ℕ) :
    ∀ ev ∈ readFailTr env k, isReadEv ev = true := by
  unfold readFailTr
  cases env.readU32 attrHI (2 * k) with
  | error rc => simp [isReadEv]
  | ok h =>
      cases env.readU32 attrHI (2 * k + 1) with
      | error rc => simp [isReadEv]
      | ok t =>
          cases env.readU32 attrINT k with
          | error rc => simp [isReadEv]
          | ok g => simp

theorem typesSetBy_reads (rtr : List Ev)
    (hr : ∀ ev ∈ rtr, isReadEv ev = true) : typesSetBy rtr = [] := by
  induction rtr with
  | nil => rfl
  | cons e rest ih =>
      have he : isReadEv e = true := hr e (by simp)
      cases e <;> simp [isReadEv] at he
      exact ih (fun ev hev => hr ev (by simp [hev]))

theorem probeLoop_ok_trace (env : ProbeEnv) :
    ∀ idxs : List ℕ,
      (∀ i ∈ idxs, readsOk env i ∧ regStepRc env (valH env i) (valT env i) = 0) →
      probeLoop env idxs =
        .ok (idxs.map (fun i => (valH env i, valT env i, valG env i)))
          (idxs.flatMap (okBlock env)) := by
  intro idxs
  induction idxs with
  | nil => intro _; rfl
  | cons i rest ih =>
      intro hall
      obtain ⟨hrd, hreg⟩ := hall i (by simp)
      obtain ⟨h1, h2, h3⟩ := hrd
      obtain ⟨vH, hH⟩ := readOk_eq _ h1
      obtain ⟨vT, hT⟩ := readOk_eq _ h2
      obtain ⟨vG, hG⟩ := readOk_eq _ h3
      have hvH : valH env i = vH := by simp [valH, hH]
      have hvT : valT env i = vT := by simp [valT, hT]
      have hvG : valG env i = vG := by simp [valG, hG]
      obtain ⟨hT0, hM0, hR0⟩ := (regStepRc_eq_zero env _ _).mp hreg
      rw [hvH, hvT] at hT0
      rw [hvH] at hM0 hR0
      have hrest := ih (fun j hj => hall j (by simp [hj]))
      simp only [probeLoop, hH, hT, hG]
      rw [if_neg (by simpa using hT0), if_neg (by simpa using hM0),
        if_neg (by simpa using hR0), hrest]
      simp [okBlock, hvH, hvT, hvG, hT0, hM0, hR0]

theorem probeLoop_fail_at (env : ProbeEnv) :
    ∀ (pre : List ℕ) (k : ℕ) (post : List ℕ) (e : Int),
      (∀ i ∈ pre, readsOk env i ∧ regStepRc env (valH env i) (valT env i) = 0) →
      readsOk env k → regStepRc env (valH env k) (valT env k) = e → e ≠ 0 →
      probeLoop env (pre ++ k :: post) =
        .fail e (pre.map (valH env))
          (pre.flatMap (okBlock env) ++ failBlock env k) := by
  intro pre
  induction pre with
  | nil =>
      intro k post e _ hrd hfail he
      obtain ⟨h1, h2, h3⟩ := hrd
      obtain ⟨vH, hH⟩ := readOk_eq _ h1
      obtain ⟨vT, hT⟩ := readOk_eq _ h2
      obtain ⟨vG, hG⟩ := readOk_eq _ h3
      have hvH : valH env k = vH := by simp [valH, hH]
      have hvT : valT env k = vT := by simp [valT, hT]
      have hvG : valG env k = vG := by simp [valG, hG]
      have hfail2 : regStepRc env vH vT = e := by
        rw [← hvH, ← hvT]; exact hfail
      subst hfail2
      unfold failBlock
      rw [hvH, hvT, hvG]
      simp only [List.nil_append, List.flatMap_nil, probeLoop, hH, hT, hG]
      unfold regStepRc
      by_cases hsT : env.setTypeRc vH vT = 0
      · by_cases hsM : env.markRoutedRc vH = 0
        · have hsR : env.registerRc vH ≠ 0 := fun hc =>
            he ((regStepRc_eq_zero env vH vT).mpr ⟨hsT, hsM, hc⟩)
          simp [hsT, hsM, hsR]
        · simp [hsT, hsM]
      · simp [hsT]
  | cons p pre' ih =>
      intro k post e hall hrd hfail he
      obtain ⟨hrdp, hregp⟩ := hall p (by simp)
      obtain ⟨h1, h2, h3⟩ := hrdp
      obtain ⟨vH, hH⟩ := readOk_eq _ h1
      obtain ⟨vT, hT⟩ := readOk_eq _ h2
      obtain ⟨vG, hG⟩ := readOk_eq _ h3
      have hvH : valH env p = vH := by simp [valH, hH]
      have hvT : valT env p = vT := by simp [valT, hT]
      have hvG : valG env p = vG := by simp [valG, hG]
      obtain ⟨hT0, hM0, hR0⟩ := (regStepRc_eq_zero env _ _).mp hregp
      rw [hvH, hvT] at hT0
      rw [hvH] at hM0 hR0
      have hrest := ih k post e (fun j hj => hall j (by simp [hj])) hrd hfail he
      simp only [List.cons_append, probeLoop, hH, hT, hG, List.append_eq]
      rw [if_neg (by simpa using hT0), if_neg (by simpa using hM0),
        if_neg (by simpa using hR0), hrest]
      simp [okBlock, hvH, hvT, hvG, hT0, hM0, hR0]

theorem probeLoop_readfail_at (env : ProbeEnv) :
    ∀ (pre : List ℕ) (k : ℕ) (post : List ℕ) (e : Int),
      (∀ i ∈ pre, readsOk env i ∧ regStepRc env (valH env i) (valT env i) = 0) →
      readStepRes env k = .error e →
      probeLoop env (pre ++ k :: post) =
        .fail e (pre.map (valH env))
          (pre.flatMap (okBlock env) ++ readFailTr env k) := by
  intro pre
  induction pre with
  | nil =>
      intro k post e _ hrd
      unfold readStepRes at hrd
      unfold readFailTr
      simp only [List.nil_append, List.nil_flatMap, probeLoop]
      cases hH : env.readU32 attrHI (2 * k) with
      | error rc =>
          rw [hH] at hrd
          simp only at hrd
          cases hrd
          rfl
      | ok h =>
          rw [hH] at hrd
          simp only at hrd
          cases hT : env.readU32 attrHI (2 * k + 1) with
          | error rc =>
              rw [hT] at hrd
              simp only at hrd
              cases hrd
              rfl
          | ok t =>
              rw [hT] at hrd
              simp only at hrd
              cases hG : env.readU32 attrINT k with
              | error rc =>
                  rw [hG] at hrd
                  simp only at hrd
                  cases hrd
                  rfl
              | ok g =>
                  rw [hG] at hrd
                  simp at hrd
  | cons p pre' ih =>
      intro k post e hall hrd
      obtain ⟨hrdp, hregp⟩ := hall p (by simp)
      obtain ⟨h1, h2, h3⟩ := hrdp
      obtain ⟨vH, hH⟩ := readOk_eq _ h1
      obtain ⟨vT, hT⟩ := readOk_eq _ h2
      obtain ⟨vG, hG⟩ := readOk_eq _ h3
      have hvH : valH env p = vH := by simp [valH, hH]
      have hvT : valT env p = vT := by simp [valT, hT]
      have hvG : valG env p = vG := by simp [valG, hG]
      obtain ⟨hT0, hM0, hR0⟩ := (regStepRc_eq_zero env _ _).mp hregp
      rw [hvH, hvT] at hT0
      rw [hvH] at hM0 hR0
      have hrest := ih k post e (fun j hj => hall j (by simp [hj])) hrd
      simp only [List.cons_append, probeLoop, hH, hT, hG, List.append_eq]
      rw [if_neg (by simpa using hT0), if_neg (by simpa using hM0),
        if_neg (by simpa using hR0), hrest]
      simp [okBlock, hvH, hvT, hvG, hT0, hM0, hR0]

theorem findGuestIrq_eq_none :
    ∀ (l : List (ℕ × ℕ × ℕ)) (irq : ℕ), (∀ t ∈ l, t.1 ≠ irq) →
      findGuestIrq l irq = none := by
  intro l
  induction l with
  | nil => intro irq _; rfl
  | cons hd tl ih =>
      intro irq hall
      obtain ⟨h, t, g⟩ := hd
      simp only [findGuestIrq]
      rw [if_neg (hall (h, t, g) (by simp))]
      exact ih irq (fun u hu => hall u (by simp [hu]))

theorem findGuestIrq_exists :
    ∀ (l : List (ℕ × ℕ × ℕ)) (irq : ℕ), (∃ t ∈ l, t.1 = irq) →
      ∃ g, findGuestIrq l irq = some g := by
  intro l
  induction l with
  | nil => intro irq hex; simp at hex
  | cons hd tl ih =>
      intro irq hex
      obtain ⟨h, t, g⟩ := hd
      by_cases hh : h = irq
      · exact ⟨g, by simp [findGuestIrq, hh]⟩
      · have hex2 : ∃ u ∈ tl, u.1 = irq := by
          rcases hex with ⟨u, hu, hu1⟩
          rcases List.mem_cons.mp hu with hu | hu
          · rw [hu] at hu1; exact absurd hu1 hh
          · exact ⟨u, hu, hu1⟩
        obtain ⟨g2, hg2⟩ := ih irq hex2
        exact ⟨g2, by simp [findGuestIrq, hh, hg2]⟩

theorem findGuestIrq_least :
    ∀ (l : List (ℕ × ℕ × ℕ)) (i irq : ℕ), i < l.length →
      (l.getD i (0, 0, 0)).1 = irq →
      (∀ i2, i2 < i → (l.getD i2 (0, 0, 0)).1 ≠ irq) →
      findGuestIrq l irq = some ((l.getD i (0, 0, 0)).2.2) := by
  intro l
  induction l with
  | nil => intro i irq hi; simp at hi
  | cons hd tl ih =>
      intro i irq hi hmatch hmin
      obtain ⟨h, t, g⟩ := hd
      cases i with
      | zero =>
          simp only [List.getD_cons_zero] at hmatch ⊢
          simp [findGuestIrq, hmatch]
      | succ i2 =>
          have hne : h ≠ irq := by simpa using hmin 0 (Nat.succ_pos i2)
          simp only [List.getD_cons_succ] at hmatch ⊢
          simp only [findGuestIrq]
          rw [if_neg hne]
          exact ih i2 irq (by simpa using hi) hmatch
            (fun i3 h3 => by simpa using hmin (i3 + 1) (by omega))

/-! ### Claim theorems -/

/-- C2: for every firing of host IRQ `irq` on an instance, if some table
entry carries `irq` the handler makes exactly two emulate calls on the
mapped guest line, level 0 then level 1 in that order; if no entry
matches it makes zero emulate calls; and in every case — the emulate
return codes are unconstrained, so this covers failing calls — it
returns `VMM_IRQ_HANDLED`. -/
theorem routed_irq_two_phase_delivery (env : HandlerEnv) (s : PtState)
    (irq : ℕ) :
    ((∃ t ∈ s.irqs, t.1 = irq) →
      ∃ g, findGuestIrq s.irqs irq = some g ∧
        (platform_pt_routed_irq env s irq).1 =
          [Ev.emulate s.guest g 0 (env.emulateRc s.guest g 0),
           Ev.emulate s.guest g 1 (env.emulateRc s.guest g 1)]) ∧
    ((∀ t ∈ s.irqs, t.1 ≠ irq) → (platform_pt_routed_irq env s irq).1 = []) ∧
    (platform_pt_routed_irq env s irq).2 = VMM_IRQ_HANDLED := by
  refine ⟨?_, ?_, ?_⟩
  · intro hex
    obtain ⟨g, hg⟩ := findGuestIrq_exists s.irqs irq hex
    exact ⟨g, hg, by simp [platform_pt_routed_irq, hg]⟩
  · intro hnone
    simp [platform_pt_routed_irq, findGuestIrq_eq_none s.irqs irq hnone]
  · unfold platform_pt_routed_irq
    cases findGuestIrq s.irqs irq <;> rfl

/-- Witness for C2 on a concrete state: host line 12 is configured (guest
line 101), all emulate calls fail, and the handler still makes the level
0 / level 1 pair and reports handled. -/
theorem routed_irq_two_phase_delivery_witness :
    (∃ g, findGuestIrq stateA.irqs 12 = some g ∧
      (platform_pt_routed_irq handlerEnvFail stateA 12).1 =
        [Ev.emulate stateA.guest g 0 (handlerEnvFail.emulateRc stateA.guest g 0),
         Ev.emulate stateA.guest g 1 (handlerEnvFail.emulateRc stateA.guest g 1)]) ∧
    (platform_pt_routed_irq handlerEnvFail stateA 12).2 = VMM_IRQ_HANDLED :=
  ⟨(routed_irq_two_phase_delivery handlerEnvFail stateA 12).1 (by decide),
   (routed_irq_two_phase_delivery handlerEnvFail stateA 12).2.2⟩

/-- C10: when two table indices `i < j` carry the same host IRQ and `i` is
the lowest matching index, a firing delivers the level-0/level-1 pair to
`guestIrqs[i]` only; every emulate call in the trace targets entry `i`'s
guest line, so later duplicate entries are never delivered to. -/
theorem duplicate_host_irq_first_match (env : HandlerEnv) (s : PtState)
    (i j irq : ℕ) (hij : i < j) (hj : j < s.irqs.length)
    (hi1 : (s.irqs.getD i (0, 0, 0)).1 = irq)
    (hj1 : (s.irqs.getD j (0, 0, 0)).1 = irq)
    (hmin : ∀ i2, i2 < i → (s.irqs.getD i2 (0, 0, 0)).1 ≠ irq) :
    (platform_pt_routed_irq env s irq).1 =
      [Ev.emulate s.guest ((s.irqs.getD i (0, 0, 0)).2.2) 0
         (env.emulateRc s.guest ((s.irqs.getD i (0, 0, 0)).2.2) 0),
       Ev.emulate s.guest ((s.irqs.getD i (0, 0, 0)).2.2) 1
         (env.emulateRc s.guest ((s.irqs.getD i (0, 0, 0)).2.2) 1)] ∧
    (∀ gst g lvl rc,
      Ev.emulate gst g lvl rc ∈ (platform_pt_routed_irq env s irq).1 →
      g = (s.irqs.getD i (0, 0, 0)).2.2) := by
  have hfind : findGuestIrq s.irqs irq =
      some ((s.irqs.getD i (0, 0, 0)).2.2) :=
    findGuestIrq_least s.irqs i irq (Nat.lt_trans hij hj) hi1 hmin
  constructor
  · simp [platform_pt_routed_irq, hfind]
  · intro gst g lvl rc hmem
    simp only [platform_pt_routed_irq, hfind, List.mem_cons,
      List.not_mem_nil, or_false] at hmem
    rcases hmem with hmem | hmem <;>
      exact (Ev.emulate.inj hmem).2.1

/-- Witness for C10 on `stateDup`, whose indices 0 and 1 both carry host
line 10 (guest lines 100 and 200): delivery goes to guest line 100. -/
theorem duplicate_host_irq_first_match_witness :
    (platform_pt_routed_irq handlerEnvFail stateDup 10).1 =
      [Ev.emulate stateDup.guest ((stateDup.irqs.getD 0 (0, 0, 0)).2.2) 0
         (handlerEnvFail.emulateRc stateDup.guest
           ((stateDup.irqs.getD 0 (0, 0, 0)).2.2) 0),
       Ev.emulate stateDup.guest ((stateDup.irqs.getD 0 (0, 0, 0)).2.2) 1
         (handlerEnvFail.emulateRc stateDup.guest
           ((stateDup.irqs.getD 0 (0, 0, 0)).2.2) 1)] ∧
    (∀ gst g lvl rc,
      Ev.emulate gst g lvl rc ∈ (platform_pt_routed_irq handlerEnvFail stateDup 10).1 →
      g = (stateDup.irqs.getD 0 (0, 0, 0)).2.2) :=
  duplicate_host_irq_first_match handlerEnvFail stateDup 0 1 10
    (by decide) (by decide) (by decide) (by decide) (by decide)

/-- C9: an event that is not aspace-init, or that is for another guest,
produces no IRQ-routing registrations and no IOMMU map calls (empty
trace), leaves the instance state unchanged, and returns the non-error
`NOTIFY_DONE` disposition. -/
theorem notification_filters_noop (regions : List VmmRegion) (s : PtState)
    (evt evGuest : ℕ)
    (h : evt ≠ VMM_GUEST_ASPACE_EVENT_INIT ∨ s.guest ≠ evGuest) :
    platform_pt_guest_aspace_notification regions s evt evGuest =
      (s, NOTIFY_DONE, []) := by
  unfold platform_pt_guest_aspace_notification
  rcases h with h | h
  · rw [if_pos h]
  · by_cases h2 : evt ≠ VMM_GUEST_ASPACE_EVENT_INIT
    · rw [if_pos h2]
    · rw [if_neg h2, if_pos h]

/-- Witness for C9: an event of kind 0 (not aspace-init) for `stateA`'s
own guest is ignored. -/
theorem notification_filters_noop_witness :
    platform_pt_guest_aspace_notification [] stateA 0 5 =
      (stateA, NOTIFY_DONE, []) :=
  notification_filters_noop [] stateA 0 5 (Or.inl (by decide))

/-- C4: a matching aspace-init event produces exactly one host-to-guest
IRQ-routing registration per table index, pairing `guestIrqs[i]` with
`hostIrqs[i]`, followed — exactly when a domain is present — by one IOMMU
map call per region carrying the real/memory/isram/is-host-ram flags,
with iova the region's guest-physical start, host address its
host-physical start, length guest-physical end minus start, and
read+write permission. -/
theorem aspace_init_mappings (regions : List VmmRegion) (s : PtState) :
    platform_pt_guest_aspace_notification regions s
        VMM_GUEST_ASPACE_EVENT_INIT s.guest =
      (s, NOTIFY_OK,
        s.irqs.map (fun t => Ev.mapH2G s.guest t.2.2 t.1) ++
        (match s.dom with
         | none => []
         | some d =>
             (regions.filter
               (fun r => r.flags &&& ptRegionMask = ptRegionMask)).map
               (fun r => Ev.iommuMap d r.gphysStart r.hphysStart
                 (r.gphysEnd - r.gphysStart)
                 (VMM_IOMMU_READ ||| VMM_IOMMU_WRITE)))) ∧
    (s.irqs.map (fun t => Ev.mapH2G s.guest t.2.2 t.1)).length =
      s.irqs.length := by
  constructor
  · unfold platform_pt_guest_aspace_notification
    rw [if_neg (by simp), if_neg (by simp)]
    cases s.dom <;> simp [vmm_guest_iterate_region, platform_pt_iter]
  · simp


theorem applyEvs_cleanupOnly (regs : List ℕ) (arr : Bool) (i a dr dm sb : Int) :
    applyEvs ⟨i, a, ↑regs, ↑regs, dr, dm, sb⟩ (cleanupTrace regs arr) =
      ⟨i - 1, a - (if arr then 3 else 0), 0, 0, dr, dm, sb⟩ := by
  have h := applyEvs_cleanup regs arr ⟨i, a, 0, 0, dr, dm, sb⟩
  simpa using h

/-- Probe up to the start of its per-index loop, when the instance
allocation succeeds, the name fits, the table is nonempty, and the three
array allocations succeed. -/
theorem probe_reaches_loop (env : ProbeEnv)
    (hInst : env.allocInstanceOk = true)
    (hName : (buildName env.guestName env.nodeName).2 < 64)
    (hN : irqCount env ≠ 0)
    (hArr : ∀ w, env.allocArrayOk w = true) :
    probe env = probeRest env (buildName env.guestName env.nodeName).1
      [.allocInstance true, .allocArray 0 true, .allocArray 1 true,
       .allocArray 2 true] true := by
  simp only [probe, hInst, hArr 0, hArr 1, hArr 2]
  rw [if_neg (by simp), if_neg (by omega), if_neg hN,
    if_neg (by simp), if_neg (by simp), if_neg (by simp)]

/-- Probe up to the start of its per-index loop when the table is empty:
the three arrays are never allocated. -/
theorem probe_reaches_rest0 (env : ProbeEnv)
    (hInst : env.allocInstanceOk = true)
    (hName : (buildName env.guestName env.nodeName).2 < 64)
    (hN : irqCount env = 0) :
    probe env = probeRest env (buildName env.guestName env.nodeName).1
      [.allocInstance true] false := by
  simp only [probe, hInst]
  rw [if_neg (by simp), if_neg (by omega), if_pos hN]

theorem okBlocks_no_ref (env : ProbeEnv) (idxs : List ℕ) :
    ∀ ev ∈ idxs.flatMap (okBlock env), isRefEv ev = false := by
  intro ev hev
  rcases List.mem_flatMap.mp hev with ⟨i, _, hin⟩
  simp only [okBlock, List.mem_cons, List.not_mem_nil, or_false] at hin
  rcases hin with h | h | h | h | h | h <;> subst h <;> rfl

theorem cleanupTrace_no_ref (regs : List ℕ) (arr : Bool) :
    ∀ ev ∈ cleanupTrace regs arr, isRefEv ev = false := by
  intro ev hev
  unfold cleanupTrace at hev
  rcases List.mem_append.mp hev with hev | hev
  · rcases List.mem_append.mp hev with hev | hev
    · rcases List.mem_flatMap.mp hev with ⟨h, _, hin⟩
      simp only [List.mem_cons, List.not_mem_nil, or_false] at hin
      rcases hin with h2 | h2 <;> subst h2 <;> rfl
    · cases arr <;> simp at hev <;>
        (rcases hev with h2 | h2 | h2 <;> subst h2 <;> rfl)
  · simp at hev
    subst hev
    rfl

theorem probeFinish_mem (env : ProbeEnv) (nm : List Char)
    (triples : List (ℕ × ℕ × ℕ)) (dev dom : Option ℕ) (tr : List Ev)
    (arr : Bool) (ev : Ev) (hev : ev ∈ tr) :
    ev ∈ (probeFinish env nm triples dev dom tr arr).2.2 := by
  unfold probeFinish
  by_cases h : env.subscribeRc = 0 <;> simp [h, hev]

theorem buildName_len (g n : List Char) :
    (buildName g n).2 = min (g.length + 1) 63 + n.length := by
  simp [buildName, strlcpy, strlcat]
  omega

/-- C1: if probe's IRQ-registration step (type-set, routed-claim or
handler install) fails at index `k` with error `e` — every read up to
index `k` and every registration before `k` having succeeded — probe
returns `e`, leaves the device slot empty, and the residual of its trace
is zero: no line registered or routed, no array, no instance. -/
theorem probe_reg_failure_rollback (env : ProbeEnv) (k : ℕ) (e : Int)
    (hInst : env.allocInstanceOk = true)
    (hName : (buildName env.guestName env.nodeName).2 < 64)
    (hArr : ∀ w, env.allocArrayOk w = true)
    (hk : k < irqCount env)
    (hreads : ∀ i, i ≤ k → readsOk env i)
    (hpre : ∀ i, i < k → regStepRc env (valH env i) (valT env i) = 0)
    (hfail : regStepRc env (valH env k) (valT env k) = e)
    (he : e ≠ 0) :
    (probe env).1 = e ∧ (probe env).2.1 = none ∧
    residualOf (probe env).2.2 = emptyResidual := by
  have hloop := probeLoop_fail_at env (List.range k) k
    (List.range' (k + 1) (irqCount env - (k + 1))) e
    (fun i hi => ⟨hreads i (Nat.le_of_lt (List.mem_range.mp hi)),
      hpre i (List.mem_range.mp hi)⟩)
    (hreads k (Nat.le_refl k)) hfail he
  rw [probe_reaches_loop env hInst hName (by omega) hArr]
  unfold probeRest
  rw [range_split k (irqCount env) hk]
  simp only [hloop]
  refine ⟨by trivial, by trivial, ?_⟩
  have hne : regStepRc env (valH env k) (valT env k) ≠ 0 := by
    rw [hfail]; exact he
  have h1 : applyEvs emptyResidual
      [Ev.allocInstance true, Ev.allocArray 0 true, Ev.allocArray 1 true,
       Ev.allocArray 2 true] = ⟨1, 3, 0, 0, 0, 0, 0⟩ := by decide
  simp only [residualOf, applyEvs_append, h1, applyEvs_okBlocks,
    applyEvs_failBlock env k hne]
  simp only [zero_add]
  rw [applyEvs_cleanupOnly]
  decide

/-- Witness for C1: on `envRegFail` the handler install fails at index 1
(line 12) with error code -9; probe returns -9 with zero residual. -/
theorem probe_reg_failure_rollback_witness :
    (probe envRegFail).1 = -9 ∧ (probe envRegFail).2.1 = none ∧
    residualOf (probe envRegFail).2.2 = emptyResidual :=
  probe_reg_failure_rollback envRegFail 1 (-9) (by decide) (by decide)
    (fun _ => rfl) (by decide) (by decide) (by decide) (by decide) (by decide)

/-- Counterexample to C5 as stated: on `envMarkFail` the routed-claim
step fails at index 0 after the type-set on line 10 (type 11) succeeded;
probe returns the error, but the trace contains no action reverting the
type-set — the set types after the failed probe are `[(10, 11)]`, not
`[]` as "undoes every one of the three sub-steps that had already
succeeded" would require (the host-IRQ interface used by this module has
no type-revert call at all). -/
theorem irq_register_no_type_undo_cex :
    (probe envMarkFail).1 = -7 ∧
    typesSetBy (probe envMarkFail).2.2 = [(10, 11)] ∧
    typesSetBy (probe envMarkFail).2.2 ≠ [] := by
  refine ⟨by decide, by decide, by decide⟩

/-- C5 amended: the register operation performs type-set, routed-claim
and handler install in this order and returns the first failing
sub-step's error; a failed install undoes the routed claim just taken
(the failure residual is zero), but a successful type-set is never
undone: after a failure at index `k`, the types set by the probe trace
are exactly those of indices `0..k-1` plus index `k`'s when its type-set
succeeded. -/
theorem irq_register_rollback_amended (env : ProbeEnv) (k : ℕ) (e : Int)
    (hInst : env.allocInstanceOk = true)
    (hName : (buildName env.guestName env.nodeName).2 < 64)
    (hArr : ∀ w, env.allocArrayOk w = true)
    (hk : k < irqCount env)
    (hreads : ∀ i, i ≤ k → readsOk env i)
    (hpre : ∀ i, i < k → regStepRc env (valH env i) (valT env i) = 0)
    (hfail : regStepRc env (valH env k) (valT env k) = e)
    (he : e ≠ 0) :
    (probe env).1 = e ∧
    residualOf (probe env).2.2 = emptyResidual ∧
    typesSetBy (probe env).2.2 =
      (List.range k).map (fun i => (valH env i, valT env i)) ++
      (if env.setTypeRc (valH env k) (valT env k) = 0
       then [(valH env k, valT env k)] else []) := by
  have hloop := probeLoop_fail_at env (List.range k) k
    (List.range' (k + 1) (irqCount env - (k + 1))) e
    (fun i hi => ⟨hreads i (Nat.le_of_lt (List.mem_range.mp hi)),
      hpre i (List.mem_range.mp hi)⟩)
    (hreads k (Nat.le_refl k)) hfail he
  rw [probe_reaches_loop env hInst hName (by omega) hArr]
  unfold probeRest
  rw [range_split k (irqCount env) hk]
  simp only [hloop]
  have hne : regStepRc env (valH env k) (valT env k) ≠ 0 := by
    rw [hfail]; exact he
  refine ⟨by trivial, ?_, ?_⟩
  · have h1 : applyEvs emptyResidual
        [Ev.allocInstance true, Ev.allocArray 0 true, Ev.allocArray 1 true,
         Ev.allocArray 2 true] = ⟨1, 3, 0, 0, 0, 0, 0⟩ := by decide
    simp only [residualOf, applyEvs_append, h1, applyEvs_okBlocks,
      applyEvs_failBlock env k hne]
    simp only [zero_add]
    rw [applyEvs_cleanupOnly]
    decide
  · simp only [typesSetBy_append, typesSetBy_okBlocks,
      typesSetBy_failBlock, typesSetBy_cleanup]
    simp [typesSetBy]

/-- Witness for the amended C5 on `envMarkFail`: the routed claim fails
at index 0 with -7 after the type-set succeeded; the set types are
exactly `[(10, 11)]` and the resource residual is zero. -/
theorem irq_register_rollback_amended_witness :
    (probe envMarkFail).1 = -7 ∧
    residualOf (probe envMarkFail).2.2 = emptyResidual ∧
    typesSetBy (probe envMarkFail).2.2 =
      (List.range 0).map (fun i => (valH envMarkFail i, valT envMarkFail i)) ++
      (if envMarkFail.setTypeRc (valH envMarkFail 0) (valT envMarkFail 0) = 0
       then [(valH envMarkFail 0, valT envMarkFail 0)] else []) :=
  irq_register_rollback_amended envMarkFail 0 (-7) (by decide) (by decide)
    (fun _ => rfl) (by decide) (by decide) (by decide) (by decide) (by decide)

/-- Counterexample to C6 as stated: with a 63-character guest name and an
empty device-node name the concatenation (64 characters plus the
terminator) does not fit the 64-byte buffer, yet probe does not fail with
`VMM_EOVERFLOW` — it returns `VMM_OK` with a silently truncated name,
because only the final `strlcat` return value is checked. -/
theorem name_overflow_undetected_cex :
    63 < envLongName.guestName.length + 1 + envLongName.nodeName.length ∧
    (probe envLongName).1 = VMM_OK ∧ VMM_OK ≠ VMM_EOVERFLOW := by
  refine ⟨by decide, by decide, by decide⟩

/-- C6 amended: the name is the concatenation guest name, "/", node name
(witnessed by the "g0"/"eth0" example); and for every configuration with
a nonempty device-node name whose concatenation does not fit (guest
length + 1 + node length > 63), probe fails with `VMM_EOVERFLOW` after
freeing the instance and before any array allocation, with zero
residual.  (A guest name of length at least 63 combined with an empty
node name escapes the check, as the counterexample shows.) -/
theorem name_overflow_amended (env : ProbeEnv)
    (hInst : env.allocInstanceOk = true)
    (hnode : env.nodeName ≠ [])
    (hbig : 63 < env.guestName.length + 1 + env.nodeName.length) :
    (buildName (String.toList "g0") (String.toList "eth0")).1 =
      String.toList "g0/eth0" ∧
    probe env = (VMM_EOVERFLOW, none,
      [Ev.allocInstance true, Ev.freeInstance]) ∧
    residualOf (probe env).2.2 = emptyResidual := by
  have hlen0 : env.nodeName.length ≠ 0 := by
    intro h
    exact hnode (List.eq_nil_of_length_eq_zero h)
  have hlen : 64 ≤ (buildName env.guestName env.nodeName).2 := by
    rw [buildName_len]
    omega
  have h2 : probe env = (VMM_EOVERFLOW, none,
      [Ev.allocInstance true, Ev.freeInstance]) := by
    simp only [probe, hInst]
    rw [if_neg (by simp), if_pos hlen]
  exact ⟨by decide, h2, by rw [h2]; decide⟩

/-- Witness for the amended C6: a 60-character guest name with a
10-character node name (71 > 63) makes probe fail with overflow before
any array allocation. -/
theorem name_overflow_amended_witness :
    (buildName (String.toList "g0") (String.toList "eth0")).1 =
      String.toList "g0/eth0" ∧
    probe envOverflow = (VMM_EOVERFLOW, none,
      [Ev.allocInstance true, Ev.freeInstance]) ∧
    residualOf (probe envOverflow).2.2 = emptyResidual :=
  name_overflow_amended envOverflow (by decide) (by decide) (by decide)

theorem probeLoop_ok_generic (env : ProbeEnv) :
    ∀ (idxs : List ℕ) (triples : List (ℕ × ℕ × ℕ)) (tr : List Ev),
      probeLoop env idxs = .ok triples tr →
      triples.length = idxs.length ∧
      ∀ r : Residual, applyEvs r tr =
        { r with registered := r.registered + ↑(triples.map (fun t => t.1)),
                 routed := r.routed + ↑(triples.map (fun t => t.1)) } := by
  intro idxs
  induction idxs with
  | nil =>
      intro triples tr hEq
      cases hEq
      exact ⟨rfl, fun r => by simp [applyEvs]⟩
  | cons i rest ih =>
      intro triples tr hEq
      simp only [probeLoop] at hEq
      cases hH : env.readU32 attrHI (2 * i) with
      | error rc => simp only [hH] at hEq; exact absurd hEq (by simp)
      | ok h =>
        simp only [hH] at hEq
        cases hT : env.readU32 attrHI (2 * i + 1) with
        | error rc => simp only [hT] at hEq; exact absurd hEq (by simp)
        | ok t =>
          simp only [hT] at hEq
          cases hG : env.readU32 attrINT i with
          | error rc => simp only [hG] at hEq; exact absurd hEq (by simp)
          | ok g =>
            simp only [hG] at hEq
            by_cases hsT : env.setTypeRc h t ≠ 0
            · rw [if_pos hsT] at hEq; exact absurd hEq (by simp)
            · rw [if_neg hsT] at hEq
              by_cases hsM : env.markRoutedRc h ≠ 0
              · rw [if_pos hsM] at hEq; exact absurd hEq (by simp)
              · rw [if_neg hsM] at hEq
                by_cases hsR : env.registerRc h ≠ 0
                · rw [if_pos hsR] at hEq; exact absurd hEq (by simp)
                · rw [if_neg hsR] at hEq
                  cases hrec : probeLoop env rest with
                  | fail rc regs tr2 =>
                      rw [hrec] at hEq; exact absurd hEq (by simp)
                  | ok triples2 tr2 =>
                      rw [hrec] at hEq
                      injection hEq with h1 h2
                      subst h1
                      subst h2
                      obtain ⟨hlen, hres⟩ := ih triples2 tr2 hrec
                      refine ⟨by simp [hlen], ?_⟩
                      intro r
                      simp only [List.cons_append, List.nil_append,
                        applyEvs_cons, applyEv]
                      rw [hres]
                      simp [Multiset.cons_add, coe_cons_add]

theorem probeFinish_ok_residual (env : ProbeEnv) (nm : List Char)
    (triples : List (ℕ × ℕ × ℕ)) (dev dom : Option ℕ) (tr0 : List Ev)
    (arr : Bool) (s : PtState) (tr : List Ev)
    (hEq : probeFinish env nm triples dev dom tr0 arr = (VMM_OK, some s, tr))
    (hres0 : residualOf tr0 =
      ⟨1, if arr then 3 else 0, ↑(triples.map (fun t => t.1)),
       ↑(triples.map (fun t => t.1)),
       if dev.isSome then 1 else 0, if dom.isSome then 1 else 0, 0⟩)
    (hne : arr = true ↔ triples ≠ []) :
    residualOf tr = postProbeResidual s := by
  unfold probeFinish at hEq
  by_cases hsub : env.subscribeRc = 0
  · rw [if_pos hsub] at hEq
    have hs : s = ⟨nm, env.guestId, triples, dev, dom⟩ := by
      have h2 := congrArg (fun p => p.2.1) hEq
      simpa using h2.symm
    have htr : tr = tr0 ++ [Ev.subscribe 0] := by
      have h2 := congrArg (fun p => p.2.2) hEq
      simpa using h2.symm
    subst hs
    subst htr
    simp only [residualOf] at hres0 ⊢
    rw [applyEvs_append, hres0]
    simp only [applyEvs_cons, applyEvs_nil, applyEv]
    unfold postProbeResidual
    cases arr with
    | true =>
        have hnil : triples ≠ [] := hne.mp rfl
        simp [hnil, List.isEmpty_eq_true]
    | false =>
        have hnil : triples = [] := by
          by_contra hc
          exact absurd (hne.mpr hc) (by simp)
        subst hnil
        simp
  · rw [if_neg hsub] at hEq
    have h2 := congrArg (fun p => p.2.1) hEq
    simp at h2

theorem probeRest_ok_residual (env : ProbeEnv) (nm : List Char)
    (trPre : List Ev) (arrAlloc : Bool) (s : PtState) (tr : List Ev)
    (hbase : residualOf trPre =
      ⟨1, if arrAlloc then 3 else 0, 0, 0, 0, 0, 0⟩)
    (harr : arrAlloc = true ↔ irqCount env ≠ 0)
    (hEq : probeRest env nm trPre arrAlloc = (VMM_OK, some s, tr)) :
    residualOf tr = postProbeResidual s := by
  unfold probeRest at hEq
  cases hloop : probeLoop env (List.range (irqCount env)) with
  | fail rc regs ltr =>
      simp only [hloop] at hEq
      have h2 := congrArg (fun p => p.2.1) hEq
      simp at h2
  | ok triples ltr =>
      simp only [hloop] at hEq
      obtain ⟨hlen, hres⟩ := probeLoop_ok_generic env _ _ _ hloop
      have hne : arrAlloc = true ↔ triples ≠ [] := by
        rw [harr]
        constructor
        · intro hn hc
          subst hc
          simp [List.length_range] at hlen
          exact hn hlen.symm
        · intro hn hc
          rw [hc, List.length_range] at hlen
          exact hn (List.eq_nil_of_length_eq_zero hlen)
      have hres1 : residualOf (trPre ++ ltr) =
          ⟨1, if arrAlloc then 3 else 0, ↑(triples.map (fun t => t.1)),
           ↑(triples.map (fun t => t.1)), 0, 0, 0⟩ := by
        simp only [residualOf, applyEvs_append]
        simp only [residualOf] at hbase
        rw [hbase, hres]
        simp
      cases hio : env.iommuDevice with
      | none =>
          simp only [hio] at hEq
          exact probeFinish_ok_residual env nm triples none none
            (trPre ++ ltr) arrAlloc s tr hEq (by simpa using hres1) hne
      | some dname =>
          simp only [hio] at hEq
          cases hfd : env.findDev dname with
          | none =>
              simp only [hfd] at hEq
              have h2 := congrArg (fun p => p.2.1) hEq
              simp at h2
          | some dev =>
              simp only [hfd] at hEq
              cases hgrp : dev.iommuGroup with
              | none =>
                  simp only [hgrp] at hEq
                  have h2 := congrArg (fun p => p.2.1) hEq
                  simp at h2
              | some grp =>
                  simp only [hgrp] at hEq
                  cases hda : env.domAlloc grp with
                  | none =>
                      simp only [hda] at hEq
                      have h2 := congrArg (fun p => p.2.1) hEq
                      simp at h2
                  | some d =>
                      simp only [hda] at hEq
                      refine probeFinish_ok_residual env nm triples
                        (some dev.id) (some d)
                        (trPre ++ ltr ++
                          [Ev.findDev dname true, Ev.refDevice dev.id] ++
                          [Ev.domainAlloc grp (some d), Ev.setFaultHandler d])
                        arrAlloc s tr ?_ ?_ hne
                      · rw [← hEq]
                      · simp only [residualOf, applyEvs_append]
                        simp only [residualOf, applyEvs_append] at hres1
                        rw [hres1]
                        simp [applyEvs_cons, applyEvs_nil, applyEv]

/-- The residual a successful probe leaves is exactly
`postProbeResidual` of the state it attaches: one instance, the arrays
when the table is nonempty, every configured line registered and routed,
the optional reference and domain, one subscription. -/
theorem probe_ok_residual (env : ProbeEnv) (s : PtState) (tr : List Ev)
    (hEq : probe env = (VMM_OK, some s, tr)) :
    residualOf tr = postProbeResidual s := by
  unfold probe at hEq
  by_cases hInst : env.allocInstanceOk = false
  · rw [if_pos hInst] at hEq
    have h2 := congrArg (fun p => p.2.1) hEq
    simp at h2
  · rw [if_neg hInst] at hEq
    by_cases hName : 64 ≤ (buildName env.guestName env.nodeName).2
    · rw [if_pos hName] at hEq
      have h2 := congrArg (fun p => p.2.1) hEq
      simp at h2
    · rw [if_neg hName] at hEq
      by_cases hN0 : irqCount env = 0
      · rw [if_pos hN0] at hEq
        exact probeRest_ok_residual env _ _ false s tr (by decide)
          (by simp [hN0]) hEq
      · rw [if_neg hN0] at hEq
        by_cases hA0 : env.allocArrayOk 0 = false
        · rw [if_pos hA0] at hEq
          have h2 := congrArg (fun p => p.2.1) hEq
          simp at h2
        · rw [if_neg hA0] at hEq
          by_cases hA1 : env.allocArrayOk 1 = false
          · rw [if_pos hA1] at hEq
            have h2 := congrArg (fun p => p.2.1) hEq
            simp at h2
          · rw [if_neg hA1] at hEq
            by_cases hA2 : env.allocArrayOk 2 = false
            · rw [if_pos hA2] at hEq
              have h2 := congrArg (fun p => p.2.1) hEq
              simp at h2
            · rw [if_neg hA2] at hEq
              exact probeRest_ok_residual env _ _ true s tr (by decide)
                (by simp [hN0]) hEq

/-- Counterexample to C8 as stated: on a fully successful two-entry
probe, a type-set / routed-claim / handler-install event for index 0
occurs before the devtree reads of index 1 — reading the triples and
registering the lines are interleaved per index, not strictly phased —
so the trace is not stage-ordered even though probe succeeds. -/
theorem stage_order_cex :
    stageOrdered (probe baseEnv).2.2 = false ∧ (probe baseEnv).1 = VMM_OK := by
  refine ⟨by decide, by decide⟩

/-- C8 amended: probe reads and registers the interrupt triples in one
per-index loop — for each index, the three reads are followed
immediately by that index's type-set, routed-claim and handler install
(visible in the `okBlock` structure of the trace) — and a devtree read
failure at index `k` aborts probe with that error, after unregistering
and unmarking lines `[0, k)` and freeing the arrays and the instance,
leaving zero residual. -/
theorem interleaved_read_register_amended (env : ProbeEnv) (k : ℕ) (e : Int)
    (hInst : env.allocInstanceOk = true)
    (hName : (buildName env.guestName env.nodeName).2 < 64)
    (hArr : ∀ w, env.allocArrayOk w = true)
    (hk : k < irqCount env)
    (hpre : ∀ i, i < k →
      readsOk env i ∧ regStepRc env (valH env i) (valT env i) = 0)
    (hrdfail : readStepRes env k = .error e) :
    probe env = (e, none,
      [Ev.allocInstance true, Ev.allocArray 0 true, Ev.allocArray 1 true,
       Ev.allocArray 2 true] ++
      ((List.range k).flatMap (okBlock env) ++ readFailTr env k) ++
      cleanupTrace ((List.range k).map (valH env)) true) ∧
    residualOf (probe env).2.2 = emptyResidual := by
  have hloop := probeLoop_readfail_at env (List.range k) k
    (List.range' (k + 1) (irqCount env - (k + 1))) e
    (fun i hi => hpre i (List.mem_range.mp hi)) hrdfail
  rw [probe_reaches_loop env hInst hName (by omega) hArr]
  unfold probeRest
  rw [range_split k (irqCount env) hk]
  simp only [hloop]
  refine ⟨by trivial, ?_⟩
  have h1 : applyEvs emptyResidual
      [Ev.allocInstance true, Ev.allocArray 0 true, Ev.allocArray 1 true,
       Ev.allocArray 2 true] = ⟨1, 3, 0, 0, 0, 0, 0⟩ := by decide
  have hrd : ∀ r : Residual, applyEvs r (readFailTr env k) = r :=
    fun r => applyEvs_reads (readFailTr env k) r (readFailTr_reads env k)
  simp only [residualOf, applyEvs_append, h1, applyEvs_okBlocks, hrd]
  simp only [zero_add]
  rw [applyEvs_cleanupOnly]
  decide

/-- Witness for the amended C8: on `envReadFail` the guest-IRQ read at
index 1 fails with -5 after index 0 was fully read and registered; probe
returns -5 with zero residual and the stated interleaved trace. -/
theorem interleaved_read_register_amended_witness :
    probe envReadFail = (-5, none,
      [Ev.allocInstance true, Ev.allocArray 0 true, Ev.allocArray 1 true,
       Ev.allocArray 2 true] ++
      ((List.range 1).flatMap (okBlock envReadFail) ++ readFailTr envReadFail 1) ++
      cleanupTrace ((List.range 1).map (valH envReadFail)) true) ∧
    residualOf (probe envReadFail).2.2 = emptyResidual :=
  interleaved_read_register_amended envReadFail 1 (-5) (by decide) (by decide)
    (fun _ => rfl) (by decide) (by decide) rfl

/-- C7: with an IOMMU device name configured (all interrupt reads and
registrations succeeding): if the device is not found, or found without
an IOMMU group, probe fails with `VMM_EINVALID`, with zero residual and
no device-reference acquisition anywhere in the trace; if domain
allocation fails after the reference was taken, probe fails with
`VMM_EFAIL` with zero residual (the reference released, every line
unregistered and unmarked, arrays and instance freed); and on a
successful allocation the fault handler is installed on the fresh
domain. -/
theorem iommu_setup_failure_paths (env : ProbeEnv) (dname : String)
    (hInst : env.allocInstanceOk = true)
    (hName : (buildName env.guestName env.nodeName).2 < 64)
    (hArr : ∀ w, env.allocArrayOk w = true)
    (hall : ∀ i, i < irqCount env →
      readsOk env i ∧ regStepRc env (valH env i) (valT env i) = 0)
    (hio : env.iommuDevice = some dname) :
    (env.findDev dname = none →
      (probe env).1 = VMM_EINVALID ∧ (probe env).2.1 = none ∧
      residualOf (probe env).2.2 = emptyResidual ∧
      ∀ ev ∈ (probe env).2.2, isRefEv ev = false) ∧
    (∀ dev, env.findDev dname = some dev → dev.iommuGroup = none →
      (probe env).1 = VMM_EINVALID ∧ (probe env).2.1 = none ∧
      residualOf (probe env).2.2 = emptyResidual ∧
      ∀ ev ∈ (probe env).2.2, isRefEv ev = false) ∧
    (∀ dev grp, env.findDev dname = some dev → dev.iommuGroup = some grp →
      env.domAlloc grp = none →
      (probe env).1 = VMM_EFAIL ∧ (probe env).2.1 = none ∧
      residualOf (probe env).2.2 = emptyResidual) ∧
    (∀ dev grp d, env.findDev dname = some dev → dev.iommuGroup = some grp →
      env.domAlloc grp = some d →
      Ev.setFaultHandler d ∈ (probe env).2.2) := by
  obtain ⟨trPre, arrAlloc, hprobe, hbase, hrefs⟩ :
      ∃ (trPre : List Ev) (arrAlloc : Bool),
        probe env = probeRest env
          (buildName env.guestName env.nodeName).1 trPre arrAlloc ∧
        applyEvs emptyResidual trPre =
          ⟨1, if arrAlloc then 3 else 0, 0, 0, 0, 0, 0⟩ ∧
        ∀ ev ∈ trPre, isRefEv ev = false := by
    by_cases hN0 : irqCount env = 0
    · exact ⟨[Ev.allocInstance true], false,
        probe_reaches_rest0 env hInst hName hN0, by decide, by decide⟩
    · exact ⟨[Ev.allocInstance true, Ev.allocArray 0 true,
        Ev.allocArray 1 true, Ev.allocArray 2 true], true,
        probe_reaches_loop env hInst hName hN0 hArr, by decide, by decide⟩
  have hloopok := probeLoop_ok_trace env (List.range (irqCount env))
    (fun i hi => hall i (List.mem_range.mp hi))
  have hmap : (((List.range (irqCount env)).map
      (fun i => (valH env i, valT env i, valG env i))).map (fun t => t.1)) =
      (List.range (irqCount env)).map (valH env) := by
    simp [List.map_map]
  have hfde : ∀ (r : Residual) (n : String) (f : Bool),
      applyEvs r [Ev.findDev n f] = r := fun _ _ _ => rfl
  rw [hprobe]
  unfold probeRest
  simp only [hloopok, hio, hmap]
  refine ⟨?_, ?_, ?_, ?_⟩
  · intro hfd
    simp only [hfd]
    refine ⟨by trivial, by trivial, ?_, ?_⟩
    · simp only [residualOf, applyEvs_append, hbase, applyEvs_okBlocks, hfde]
      simp only [zero_add]
      rw [applyEvs_cleanupOnly]
      cases arrAlloc <;> decide
    · intro ev hev
      rcases List.mem_append.mp hev with hev | hev
      · rcases List.mem_append.mp hev with hev | hev
        · rcases List.mem_append.mp hev with hev | hev
          · exact hrefs ev hev
          · exact okBlocks_no_ref env _ ev hev
        · simp at hev
          subst hev
          rfl
      · exact cleanupTrace_no_ref _ _ ev hev
  · intro dev hfd hgrp
    simp only [hfd, hgrp]
    refine ⟨by trivial, by trivial, ?_, ?_⟩
    · simp only [residualOf, applyEvs_append, hbase, applyEvs_okBlocks, hfde]
      simp only [zero_add]
      rw [applyEvs_cleanupOnly]
      cases arrAlloc <;> decide
    · intro ev hev
      rcases List.mem_append.mp hev with hev | hev
      · rcases List.mem_append.mp hev with hev | hev
        · rcases List.mem_append.mp hev with hev | hev
          · exact hrefs ev hev
          · exact okBlocks_no_ref env _ ev hev
        · simp at hev
          subst hev
          rfl
      · exact cleanupTrace_no_ref _ _ ev hev
  · intro dev grp hfd hgrp hda
    simp only [hfd, hgrp, hda]
    refine ⟨by trivial, by trivial, ?_⟩
    have hmid : ∀ r : Residual,
        applyEvs r [Ev.findDev dname true, Ev.refDevice dev.id] =
          { r with devRefs := r.devRefs + 1 } := fun _ => rfl
    have hmid2 : ∀ r : Residual,
        applyEvs r [Ev.domainAlloc grp none, Ev.drefDevice dev.id] =
          { r with devRefs := r.devRefs - 1 } := fun _ => rfl
    simp only [residualOf, applyEvs_append, hbase, applyEvs_okBlocks,
      hmid, hmid2]
    simp only [zero_add, add_sub_cancel_right]
    rw [applyEvs_cleanupOnly]
    cases arrAlloc <;> decide
  · intro dev grp d hfd hgrp hda
    simp only [hfd, hgrp, hda]
    exact probeFinish_mem env _ _ _ _ _ _ _ (by simp)

/-- Witness for C7: on `envIommuNoDev` (device name not resolvable) probe
fails with `VMM_EINVALID`, zero residual, and no reference acquisition;
on `envIommuOk` the fault handler is installed on the allocated domain
42. -/
theorem iommu_setup_failure_paths_witness :
    ((probe envIommuNoDev).1 = VMM_EINVALID ∧
     (probe envIommuNoDev).2.1 = none ∧
     residualOf (probe envIommuNoDev).2.2 = emptyResidual ∧
     ∀ ev ∈ (probe envIommuNoDev).2.2, isRefEv ev = false) ∧
    Ev.setFaultHandler 42 ∈ (probe envIommuOk).2.2 :=
  ⟨(iommu_setup_failure_paths envIommuNoDev "uart0" (by decide) (by decide)
      (fun _ => rfl) (by decide) (by decide)).1 (by decide),
   (iommu_setup_failure_paths envIommuOk "uart0" (by decide) (by decide)
      (fun _ => rfl) (by decide) (by decide)).2.2.2 ⟨21, some 77⟩ 77 42
      (by decide) (by decide) (by decide)⟩


/-- C3: remove on an empty slot fails with `VMM_EFAIL` and performs no
teardown action; on an attached instance it unconditionally unsubscribes,
frees the domain if present, releases the device reference if present,
unregisters and unmarks every configured line, frees the arrays, frees
the instance — in that order — and clears the slot; this trace drains
exactly the residual a successful probe leaves (`probe_ok_residual`), so
probe followed by remove leaves zero resident resources. -/
theorem remove_guard_and_full_teardown :
    platform_pt_remove none = (VMM_EFAIL, none, []) ∧
    (∀ s : PtState,
      platform_pt_remove (some s) =
        (VMM_OK, none,
          [Ev.unsubscribe] ++
          (match s.dom with | some d => [Ev.domainFree d] | none => []) ++
          (match s.dev with | some d => [Ev.drefDevice d] | none => []) ++
          s.irqs.flatMap (fun t => [Ev.unregisterH t.1, Ev.unmarkRouted t.1]) ++
          (if s.irqs.isEmpty then []
           else [Ev.freeArray 2, Ev.freeArray 1, Ev.freeArray 0]) ++
          [Ev.freeInstance])) ∧
    (∀ s : PtState,
      applyEvs (postProbeResidual s) (platform_pt_remove (some s)).2.2 =
        emptyResidual) ∧
    (∀ (env : ProbeEnv) (s : PtState) (tr : List Ev),
      probe env = (VMM_OK, some s, tr) →
      residualOf (tr ++ (platform_pt_remove (some s)).2.2) = emptyResidual) := by
  have hdrain : ∀ s : PtState,
      applyEvs (postProbeResidual s) (platform_pt_remove (some s)).2.2 =
        emptyResidual := by
    intro s
    obtain ⟨nm, g, irqs, dev, dom⟩ := s
    have hflat : irqs.flatMap
        (fun t => [Ev.unregisterH t.1, Ev.unmarkRouted t.1]) =
        (irqs.map (fun t => t.1)).flatMap
          (fun h => [Ev.unregisterH h, Ev.unmarkRouted h]) := by
      rw [List.flatMap_map]
    rcases dom with _ | d <;> rcases dev with _ | dv <;>
      cases irqs with
      | nil =>
          simp [platform_pt_remove, postProbeResidual, applyEvs, applyEv,
            emptyResidual]
      | cons t0 rest =>
          simp only [platform_pt_remove, postProbeResidual, hflat,
            List.isEmpty_cons, Option.isSome_none, Option.isSome_some,
            Bool.false_eq_true, if_false, if_true, ite_true, ite_false,
            List.append_assoc, List.cons_append, List.nil_append,
            List.singleton_append]
          simp only [applyEvs_cons, applyEv]
          norm_num
          simp only [applyEvs_cons, applyEv, ← Multiset.cons_coe,
            Multiset.erase_cons_head]
          rw [applyEvs_unregCont0]
          decide
  refine ⟨rfl, fun s => rfl, hdrain, ?_⟩
  intro env s tr hEq
  have h2 := probe_ok_residual env s tr hEq
  simp only [residualOf] at h2 ⊢
  rw [applyEvs_append, h2]
  exact hdrain s

/-- Witness for C3: a successful probe of `baseEnv` followed by remove
on the attached state leaves zero resident resources. -/
theorem remove_guard_and_full_teardown_witness :
    residualOf ((probe baseEnv).2.2 ++
      (platform_pt_remove (some stateBase)).2.2) = emptyResidual :=
  remove_guard_and_full_teardown.2.2.2 baseEnv stateBase
    (probe baseEnv).2.2 (by decide)

end PlatformPT
